import Mathlib

/-!
Verification development for the s3 session-keepalive service
(bergea1/trello-app, directory s3/).

The JavaScript source is shallowly embedded: every effectful host
primitive (filesystem read/write, S3 GetObject/PutObject, browser
navigation, timers) is represented by an explicit environment value or
by explicit state passing, while the control flow of each function in
src/s3/index.js, src/s3/config.js and src/s3/utils/secrets.js is
translated branch by branch.  JS strings are modelled as Lean String
where only equality/containment matters, and as lists of Unicode code
points (List Nat) where UTF-8 byte encoding matters.
-/

set_option autoImplicit false

namespace S3App

/-- Outcome of one host-level effect: the operation either succeeded or
rejected with an error message. -/
inductive StepOutcome where
  | ok : StepOutcome
  | err (msg : String) : StepOutcome
deriving DecidableEq, Repr

/-- Result of the host filesystem readFile call for one secret file:
either the file content or a rejection. -/
inductive ReadResult where
  | ok (data : String) : ReadResult
  | fail (msg : String) : ReadResult
deriving DecidableEq, Repr

/-! ### Secret Loader (src/s3/utils/secrets.js) -/

/-- Whitespace per the ECMAScript definition used by
String.prototype.trim: TAB, LF, VT, FF, CR, SP, NBSP, LS, PS, ZWNBSP. -/
def jsWhitespace (c : Char) : Bool :=
  c.toNat = 9 || c.toNat = 10 || c.toNat = 11 || c.toNat = 12 ||
  c.toNat = 13 || c.toNat = 32 || c.toNat = 160 ||
  c.toNat = 8232 || c.toNat = 8233 || c.toNat = 65279

/-- Drop trailing whitespace from a character list. -/
def rtrimCL (l : List Char) : List Char :=
  (l.reverse.dropWhile jsWhitespace).reverse

/-- Model of the JS String.prototype.trim call in readSecret: remove
leading and trailing whitespace (trimming the two ends is
order-independent; we trim the right end first). -/
def jsTrim (s : String) : String :=
  ⟨(rtrimCL s.data).dropWhile jsWhitespace⟩

/-- Model of readSecret (src/s3/utils/secrets.js lines 3-12): the
readFile outcome for the fixed path /run/secrets/NAME is supplied by the
environment; on success the trimmed content is returned, on failure a
warning is logged and null (here none) is returned. -/
def readSecret (fsResult : ReadResult) : Option String :=
  match fsResult with
  | .ok data => some (jsTrim data)
  | .fail _ => none

/-! ### Config Resolver (src/s3/config.js) -/

/-- Configuration record assembled by loadConfig; every field is the
possibly-null result of one readSecret call. -/
structure JsConfig where
  WEBSITE_URL : Option String
  TARGET_URL : Option String
  SPACE_BUCKET : Option String
  SPACE_REGION : Option String
  SPACE_KEY : Option String
  SPACE_SECRET : Option String
  SPACE_PATH : Option String
  SPACE_ENDPOINT : Option String
deriving DecidableEq, Repr

/-- Model of loadConfig (src/s3/config.js lines 5-36): the eight named
secrets are read (the Promise.all fan-out is pure fan-out: each read is
independent, so the join is the record of the eight results) and
assembled into the configuration record. -/
def loadConfig (env : String → ReadResult) : JsConfig :=
  { WEBSITE_URL := readSecret (env "website_url")
    TARGET_URL := readSecret (env "target_url")
    SPACE_BUCKET := readSecret (env "space_bucket")
    SPACE_REGION := readSecret (env "space_region")
    SPACE_KEY := readSecret (env "space_key")
    SPACE_SECRET := readSecret (env "space_secret")
    SPACE_PATH := readSecret (env "space_path")
    SPACE_ENDPOINT := readSecret (env "space_endpoint") }

/-- Model of getConfig (src/s3/config.js lines 38-43).  The module-level
variable configPromise is the explicit cache state; a Promise value is
always truthy, so the load runs only when the cache is empty.  The
returned Bool records whether this call ran loadConfig. -/
def getConfig (cache : Option JsConfig) (env : String → ReadResult) :
    Option JsConfig × JsConfig × Bool :=
  match cache with
  | some c => (some c, c, false)
  | none =>
      let c := loadConfig env
      (some c, c, true)

/-- A sequence of n getConfig calls threaded through the cache state
(JS is single-threaded, so even calls issued concurrently interleave
sequentially and share the one cached pending promise).  Returns the
list of per-call results, the number of loadConfig runs, and the final
cache. -/
def getConfigCalls (env : String → ReadResult) :
    Nat → Option JsConfig → List JsConfig × Nat × Option JsConfig
  | 0, cache => ([], 0, cache)
  | n + 1, cache =>
      let r := getConfig cache env
      let rest := getConfigCalls env n r.1
      (r.2.1 :: rest.1, (if r.2.2 then 1 else 0) + rest.2.1, rest.2.2)

/-! ### Byte-level text model

JS strings that cross the byte boundary (Buffer.toString, file content,
S3 object bodies) are modelled as lists of Unicode code points, and
buffers as lists of byte values. -/

/-- UTF-8 encoding of one Unicode code point (the encoding performed by
JSON text written with the utf-8 flag of fs.writeFile and carried in the
uploaded Buffer). -/
def utf8EncodeChar (c : Nat) : List Nat :=
  if c < 128 then [c]
  else if c < 2048 then [192 + c / 64, 128 + c % 64]
  else if c < 65536 then [224 + c / 4096, 128 + c / 64 % 64, 128 + c % 64]
  else [240 + c / 262144, 128 + c / 4096 % 64, 128 + c / 64 % 64, 128 + c % 64]

/-- UTF-8 encoding of a code-point string. -/
def utf8Encode (cs : List Nat) : List Nat :=
  (cs.map utf8EncodeChar).flatten

/-- One step of the UTF-8 decoder: given the lead byte and the bytes
after it, produce the decoded code point and the remaining bytes.  A
malformed lead or missing continuation byte yields the replacement
character 65533 and resynchronises after the lead byte, as
Buffer.toString does. -/
def utf8DecodeStep (b0 : Nat) (rest : List Nat) : Nat × List Nat :=
  if b0 < 128 then (b0, rest)
  else if b0 < 192 then (65533, rest)
  else if b0 < 224 then
    match rest with
    | b1 :: r =>
        if b1 / 64 = 2 then (b0 % 32 * 64 + b1 % 64, r) else (65533, b1 :: r)
    | [] => (65533, [])
  else if b0 < 240 then
    match rest with
    | b1 :: b2 :: r =>
        if b1 / 64 = 2 && b2 / 64 = 2 then
          (b0 % 16 * 4096 + b1 % 64 * 64 + b2 % 64, r)
        else (65533, b1 :: b2 :: r)
    | r => (65533, r)
  else if b0 < 248 then
    match rest with
    | b1 :: b2 :: b3 :: r =>
        if b1 / 64 = 2 && b2 / 64 = 2 && b3 / 64 = 2 then
          (b0 % 8 * 262144 + b1 % 64 * 4096 + b2 % 64 * 64 + b3 % 64, r)
        else (65533, b1 :: b2 :: b3 :: r)
    | r => (65533, r)
  else (65533, rest)

/-- The decoder loop, driven by a fuel bound on the number of decoded
code points; each step consumes at least the lead byte, so a fuel equal
to the byte length always suffices. -/
def utf8DecodeAux : Nat → List Nat → List Nat
  | 0, _ => []
  | _ + 1, [] => []
  | f + 1, b0 :: rest =>
      (utf8DecodeStep b0 rest).1 :: utf8DecodeAux f (utf8DecodeStep b0 rest).2

/-- Model of Buffer.prototype.toString with the utf-8 flag, as used on
the concatenated stream chunks in readS3File: decode the byte list into
code points; total, as Buffer.toString is. -/
def utf8DecodeLossy (l : List Nat) : List Nat :=
  utf8DecodeAux l.length l

/-- Every code point of a JS string is a valid Unicode value. -/
abbrev validText (s : List Nat) : Prop :=
  ∀ c ∈ s, c < 1114112

/-! ### JSON serialization (JSON.stringify(data, null, 2)) -/

/-- Lower-case hexadecimal digit, for control-character escapes. -/
def hexDigit (n : Nat) : Nat :=
  if n < 10 then 48 + n else 87 + n

/-- Escape of one character inside a JSON string literal, per
JSON.stringify: quote, backslash and control characters are escaped,
everything else passes through. -/
def jsonEscapeChar (c : Nat) : List Nat :=
  if c = 34 then [92, 34]
  else if c = 92 then [92, 92]
  else if c = 8 then [92, 98]
  else if c = 9 then [92, 116]
  else if c = 10 then [92, 110]
  else if c = 12 then [92, 102]
  else if c = 13 then [92, 114]
  else if c < 32 then [92, 117, 48, 48, hexDigit (c / 16), hexDigit (c % 16)]
  else [c]

/-- A JSON string literal: quoted, escaped content. -/
def jsonQuote (s : List Nat) : List Nat :=
  [34] ++ (s.map jsonEscapeChar).flatten ++ [34]

/-- Join a list of code-point strings with a separator. -/
def joinSep (sep : List Nat) : List (List Nat) → List Nat
  | [] => []
  | [x] => x
  | x :: y :: rest => x ++ sep ++ joinSep sep (y :: rest)

/-- Model of JSON.stringify(data, null, 2) on a flat string-to-string
map: an empty object prints as two braces; otherwise each entry is
indented by two spaces, keys and values are quoted, entries are
separated by a comma and newline, and the closing brace sits on its own
line. -/
def jsonStringifyMap (m : List (List Nat × List Nat)) : List Nat :=
  match m with
  | [] => [123, 125]
  | _ =>
      [123, 10] ++
        joinSep [44, 10]
          (m.map (fun p => [32, 32] ++ jsonQuote p.1 ++ [58, 32] ++ jsonQuote p.2)) ++
        [10, 125]

/-! ### Object Store Client (src/s3/index.js lines 32-70) -/

/-- The remote object store: bucket and key address an optional byte
body. -/
abbrev S3State : Type := String → String → Option (List Nat)

/-- Effect of a successful PutObjectCommand: the body is stored at the
bucket/key, overwriting any existing object. -/
def putObject (st : S3State) (bucket key : String) (body : List Nat) : S3State :=
  fun b k => if b = bucket && k = key then some body else st b k

/-- Configuration fields as consumed by src/s3/index.js (the resolved
values of the JsConfig record; the claims about the driver concern
configured instances, so the fields are plain strings here). -/
structure Config where
  WEBSITE_URL : String
  TARGET_URL : String
  SPACE_BUCKET : String
  SPACE_PATH : String
deriving DecidableEq, Repr

/-- Transport environment of one GetObject call: whether the request
itself succeeds, and how the response body is split into stream
chunks. -/
structure FetchEnv where
  getOutcome : StepOutcome
  chunking : List Nat → List (List Nat)

/-- Model of the streamToString helper (src/s3/index.js lines 41-47):
the data chunks are accumulated, concatenated and decoded as UTF-8. -/
def streamToString (chunks : List (List Nat)) : List Nat :=
  utf8DecodeLossy chunks.flatten

/-- Model of readS3File (src/s3/index.js lines 32-53): on a transport
error or a missing object the catch branch logs and the function
returns undefined (none); otherwise the streamed body is decoded as
UTF-8 text. -/
def readS3File (cfg : Config) (env : FetchEnv) (st : S3State) : Option (List Nat) :=
  match env.getOutcome with
  | .err _ => none
  | .ok =>
      match st cfg.SPACE_BUCKET cfg.SPACE_PATH with
      | none => none
      | some body => some (streamToString (env.chunking body))

/-- The local filesystem seen by the service: the content of the
scratch file ./localStorage.json, if it exists. -/
structure LocalFS where
  scratch : Option (List Nat)
deriving DecidableEq

/-- Transport environment of one uploadToS3 call: the outcome of the
fs.readFile of the scratch file and of the PutObjectCommand send. -/
structure UploadEnv where
  readFileResult : StepOutcome
  sendResult : StepOutcome
deriving DecidableEq, Repr

/-- How one uploadToS3 call ended. -/
inductive UploadOutcome where
  /-- The object was stored and the success message logged. -/
  | uploaded : UploadOutcome
  /-- The send failed; the error was caught and logged inside
  uploadToS3, which returned normally. -/
  | sendFailedLogged (e : String) : UploadOutcome
  /-- The fs.readFile of the scratch file rejected; this happens before
  the try block, so the error propagates to the caller. -/
  | threwRead (e : String) : UploadOutcome
deriving DecidableEq, Repr

/-- Model of uploadToS3 (src/s3/index.js lines 55-70): the scratch file
is read outside the try block (a read failure propagates); the send is
inside the try block (a send failure is caught and logged and the
function returns normally). -/
def uploadToS3 (cfg : Config) (env : UploadEnv) (fs : LocalFS) (st : S3State) :
    S3State × UploadOutcome :=
  match fs.scratch with
  | none => (st, .threwRead "ENOENT")
  | some buf =>
      match env.readFileResult with
      | .err e => (st, .threwRead e)
      | .ok =>
          match env.sendResult with
          | .err e => (st, .sendFailedLogged e)
          | .ok => (putObject st cfg.SPACE_BUCKET cfg.SPACE_PATH buf, .uploaded)

/-! ### Login-confirmation poll (src/s3/index.js lines 121-130) -/

/-- Whether the pattern list is an initial segment of the first list. -/
def startsWithCL : List Char → List Char → Bool
  | _, [] => true
  | [], _ :: _ => false
  | a :: as, b :: bs => (a = b) && startsWithCL as bs

/-- Containment of a pattern anywhere in the list. -/
def includesCL (l sub : List Char) : Bool :=
  match l with
  | [] => startsWithCL [] sub
  | _ :: cs => startsWithCL l sub || includesCL cs sub

/-- Model of the JS String.prototype.includes call in checkLogin. -/
def jsIncludes (s sub : String) : Bool :=
  includesCL s.data sub.data

/-- Model of checkLogin (src/s3/index.js lines 121-130), run against the
trace of post-navigation page URLs the environment produces, one per
iteration.  Each iteration first sleeps 10000 ms, then navigates to
TARGET_URL and reads the resulting page URL.  The result is none when no
URL in the trace contains TARGET_URL (the loop is still polling after
consuming the trace), or some (i, t) where i is the zero-based iteration
at which the function returned and t the total milliseconds slept. -/
def checkLoginRun (target : String) : List String → Option (Nat × Nat)
  | [] => none
  | u :: rest =>
      if jsIncludes u target then some (0, 10000)
      else (checkLoginRun target rest).map (fun p => (p.1 + 1, p.2 + 10000))

/-! ### Session-storage injection (src/s3/index.js lines 92-102)

The page.evaluate callback parses the snapshot text and writes each
key/value pair into the page storage with setItem. -/

/-- The page's client-side storage: an insertion-ordered association
list, as localStorage enumeration order is insertion order. -/
abbrev Storage : Type := List (List Nat × List Nat)

/-- Model of Storage.prototype.setItem: overwrite in place when the key
exists, append otherwise. -/
def setItem (st : Storage) (k v : List Nat) : Storage :=
  if st.any (fun p => p.1 = k) then
    st.map (fun p => if p.1 = k then (k, v) else p)
  else st ++ [(k, v)]

/-- Model of Storage.prototype.getItem. -/
def getItem (st : Storage) (k : List Nat) : Option (List Nat) :=
  (st.find? (fun p => p.1 = k)).map (fun p => p.2)

/-- What the injection callback did. -/
structure InjectResult where
  storage : Storage
  loggedParseError : Bool
  abortedNavigation : Bool
deriving DecidableEq

/-- Model of the evaluate callback of the Restoring phase
(src/s3/index.js lines 92-102).  The JSON.parse of the snapshot text is
a host primitive; its result is supplied as parsed (none models a parse
throw).  A parse error is caught inside the callback and logged; the
callback returns normally either way, so navigation is never aborted. -/
def injectStorage (parsed : Option (List (List Nat × List Nat))) (st : Storage) :
    InjectResult :=
  match parsed with
  | none => ⟨st, true, false⟩
  | some pairs => ⟨pairs.foldl (fun s p => setItem s p.1 p.2) st, false, false⟩

/-! ### Refresh cycle (src/s3/index.js lines 132-163) -/

/-- Environment of one refreshAndGetToken call: the state of the page
handle and the outcome of each host effect the cycle performs, in
program order. -/
structure RefreshEnv where
  pageClosed : Bool
  reloadResult : StepOutcome
  captureResult : Except String (List (List Nat × List Nat))
  writeResult : StepOutcome
  uploadEnv : UploadEnv
  tokenResult : Except String (List Nat)

/-- Result of one refreshAndGetToken call.  The function catches every
error of its body, so it always returns; loggedError records the error
its catch branch logged, if any. -/
structure RefreshResult where
  fs : LocalFS
  st : S3State
  loggedError : Option String
  earlyReturn : Bool

/-- Model of refreshAndGetToken (src/s3/index.js lines 132-163).  An
undefined or closed page logs and returns early.  Otherwise the body
runs reload, the 2000 ms settle pause, the storage capture, the scratch
file write (JSON.stringify of the captured map, pretty-printed, UTF-8),
uploadToS3 and the token read; any rejection reaches the catch branch,
which logs it and returns, except a send failure, which uploadToS3
itself catches and logs before returning normally. -/
def refreshAndGetToken (cfg : Config) (env : RefreshEnv) (fs : LocalFS) (st : S3State) :
    RefreshResult :=
  if env.pageClosed then ⟨fs, st, none, true⟩
  else
    match env.reloadResult with
    | .err e => ⟨fs, st, some e, false⟩
    | .ok =>
        match env.captureResult with
        | .error e => ⟨fs, st, some e, false⟩
        | .ok data =>
            match env.writeResult with
            | .err e => ⟨fs, st, some e, false⟩
            | .ok =>
                let fs2 : LocalFS := ⟨some (utf8Encode (jsonStringifyMap data))⟩
                match uploadToS3 cfg env.uploadEnv fs2 st with
                | (st2, .threwRead e) => ⟨fs2, st2, some e, false⟩
                | (st2, .sendFailedLogged _) =>
                    match env.tokenResult with
                    | .error e => ⟨fs2, st2, some e, false⟩
                    | .ok _ => ⟨fs2, st2, none, false⟩
                | (st2, .uploaded) =>
                    match env.tokenResult with
                    | .error e => ⟨fs2, st2, some e, false⟩
                    | .ok _ => ⟨fs2, st2, none, false⟩

/-- The perpetual refresh loop (src/s3/index.js lines 106-109), unrolled
against a stream of per-cycle environments up to the given fuel.
Returns the threaded filesystem and store states, the number of ticks
that executed, and whether the loop terminated (it never does: the
while-true body has no break or return, and refreshAndGetToken always
returns). -/
def refreshLoop (cfg : Config) :
    Nat → (Nat → RefreshEnv) → LocalFS → S3State → (LocalFS × S3State) × Nat × Bool
  | 0, _, fs, st => ((fs, st), 0, false)
  | n + 1, envs, fs, st =>
      let r := refreshAndGetToken cfg (envs 0) fs st
      let rest := refreshLoop cfg n (fun i => envs (i + 1)) r.fs r.st
      (rest.1, rest.2.1 + 1, rest.2.2)

/-! ### Session Driver (src/s3/index.js lines 72-119) -/

/-- Model of the JS falsiness test on the readS3File result at line 75:
undefined and the empty string are the falsy values of that
expression. -/
def jsFalsy (s : Option (List Nat)) : Bool :=
  match s with
  | none => true
  | some l => l.isEmpty

/-- Environment of one loginWithGoogle attempt. -/
structure DriverEnv where
  fetchEnv : FetchEnv
  launchResult : StepOutcome
  setupResult : StepOutcome
  navUrls : List String
  refreshEnvs : Nat → RefreshEnv
  refreshFuel : Nat

/-- Observable outcome of one loginWithGoogle attempt. -/
structure DriverResult where
  launched : Bool
  injectionRan : Bool
  loginConfirmed : Bool
  refreshTicks : Nat
  loggedLoginError : Option String
  browserClosed : Bool
  threw : Bool
  stillRunning : Bool
deriving DecidableEq, Repr

/-- Model of loginWithGoogle (src/s3/index.js lines 72-119).  The
snapshot is fetched before the try block; a falsy result returns at line
75 with no browser acquired.  A launch rejection is caught at line 111
and logged; the browser variable was never assigned, so the finally
block skips the close, and the function returns normally.  A rejection
during page setup or the initial navigation is likewise caught and
logged, and the finally block closes the browser.  Otherwise the
injection evaluate runs, checkLogin polls the navigation-result trace,
and on confirmation the refresh loop runs forever (stillRunning: within
any fuel the attempt has not returned). -/
def loginWithGoogle (cfg : Config) (env : DriverEnv) (fs : LocalFS) (st : S3State) :
    DriverResult × LocalFS × S3State :=
  let fileContent := readS3File cfg env.fetchEnv st
  if jsFalsy fileContent then
    (⟨false, false, false, 0, none, false, false, false⟩, fs, st)
  else
    match env.launchResult with
    | .err e => (⟨false, false, false, 0, some e, false, false, false⟩, fs, st)
    | .ok =>
        match env.setupResult with
        | .err e => (⟨true, false, false, 0, some e, true, false, false⟩, fs, st)
        | .ok =>
            match checkLoginRun cfg.TARGET_URL env.navUrls with
            | none => (⟨true, true, false, 0, none, false, false, true⟩, fs, st)
            | some _ =>
                let r := refreshLoop cfg env.refreshFuel env.refreshEnvs fs st
                (⟨true, true, true, r.2.1, none, false, false, true⟩, r.1.1, r.1.2)

/-! ### Keepalive Supervisor (src/s3/index.js lines 165-176) -/

/-- How one Session Driver attempt ended, as the supervisor sees it. -/
inductive AttemptEnd where
  | normal : AttemptEnd
  | thrown (e : String) : AttemptEnd
deriving DecidableEq, Repr

/-- What one supervisor iteration does after the attempt ends. -/
structure SupervisorStep where
  caughtException : Bool
  delayMs : Nat
  retries : Bool
deriving DecidableEq, Repr

/-- Model of one iteration of keepSessionAlive (src/s3/index.js lines
166-175): an exception escaping the driver is caught and logged; either
way the restart message is logged, the loop sleeps 10000 ms and loops
again. -/
def keepAliveStep (a : AttemptEnd) : SupervisorStep :=
  match a with
  | .normal => ⟨false, 10000, true⟩
  | .thrown _ => ⟨true, 10000, true⟩

/-- The supervisor loop unrolled over an arbitrary stream of attempt
ends, up to the given fuel: returns the number of attempts run and
whether the loop terminated. -/
def keepSessionAliveEnds : Nat → (Nat → AttemptEnd) → Nat × Bool
  | 0, _ => (0, false)
  | n + 1, ends =>
      let _ := keepAliveStep (ends 0)
      let rest := keepSessionAliveEnds n (fun i => ends (i + 1))
      (rest.1 + 1, rest.2)

/-- The supervisor loop unrolled over the actual driver model: each
iteration runs loginWithGoogle (whose model is total: every error of an
attempt is either caught inside the driver or would be caught by the
supervisor's catch), sleeps 10000 ms and retries. -/
def keepSessionAliveRun (cfg : Config) :
    Nat → (Nat → DriverEnv) → LocalFS → S3State → Nat × Bool
  | 0, _, _, _ => (0, false)
  | n + 1, envs, fs, st =>
      let r := loginWithGoogle cfg (envs 0) fs st
      let rest := keepSessionAliveRun cfg n (fun i => envs (i + 1)) r.2.1 r.2.2
      (rest.1 + 1, rest.2)

/-! ### Concrete instances used by witnesses and counterexamples -/

/-- A configured instance: resolved URL, confirmation URL, bucket and
object path of one deployment. -/
def cfg0 : Config :=
  ⟨"https://login.example", "https://conf", "bucket0", "sessions/localStorage.json"⟩

/-- Identity chunking: the whole response body arrives as one stream
chunk. -/
def oneChunk : List Nat → List (List Nat) := fun b => [b]

/-- A refresh-cycle environment in which every host effect succeeds and
the captured storage map is empty. -/
def envRefreshOk : RefreshEnv := ⟨false, .ok, .ok [], .ok, ⟨.ok, .ok⟩, .ok []⟩

/-- A store holding a one-byte snapshot at the configured bucket and
path. -/
def stOneByte : S3State := fun b k =>
  if b = "bucket0" && k = "sessions/localStorage.json" then some [65] else none

/-- The empty store: no snapshot object anywhere. -/
def stNone : S3State := fun _ _ => none

/-- A store holding an empty object body at the configured bucket and
path. -/
def stEmptyBody : S3State := fun b k =>
  if b = "bucket0" && k = "sessions/localStorage.json" then some [] else none

/-- An empty local filesystem: the scratch file does not exist yet. -/
def fs0 : LocalFS := ⟨none⟩

/-- A driver environment whose browser launch rejects and whose other
effects would succeed. -/
def envLaunchFail : DriverEnv :=
  ⟨⟨.ok, oneChunk⟩, .err "launch failed", .ok, [], fun _ => envRefreshOk, 0⟩

/-- A driver environment in which every effect succeeds and the first
confirmation navigation already lands on the confirmation URL. -/
def envDriverOk : DriverEnv :=
  ⟨⟨.ok, oneChunk⟩, .ok, .ok, ["https://conf"], fun _ => envRefreshOk, 1⟩

/-! ## Theorems -/

theorem jsWhitespace_newline : jsWhitespace (Char.ofNat 10) = true := by decide

theorem jsTrim_append_newline (s : String) : jsTrim (s ++ "\n") = jsTrim s := by
  have h : (s ++ "\n").data = s.data ++ [Char.ofNat 10] := by
    rw [String.data_append]
  apply congrArg String.mk
  rw [h]
  unfold rtrimCL
  rw [List.reverse_append]
  simp [List.dropWhile_cons, jsWhitespace_newline]

theorem jsTrim_all_whitespace (data : String)
    (h : data.data.all jsWhitespace = true) : jsTrim data = "" := by
  have h2 : data.data.reverse.dropWhile jsWhitespace = [] := by
    rw [List.dropWhile_eq_nil_iff]
    intro x hx
    exact (List.all_eq_true.mp h) x (List.mem_reverse.mp hx)
  show String.mk ((rtrimCL data.data).dropWhile jsWhitespace) = ""
  unfold rtrimCL
  rw [h2]
  rfl

/-- C9: when the secret file read succeeds, readSecret returns the file
content with leading and trailing whitespace removed (not the raw
content): a trailing newline is stripped, and a file containing only
whitespace yields the empty string, not the missing-indicator null. -/
theorem readSecret_trims_on_success :
    (∀ data : String, readSecret (.ok data) = some (jsTrim data)) ∧
    (∀ s : String, jsTrim (s ++ "\n") = jsTrim s) ∧
    (∀ data : String, data.data.all jsWhitespace = true →
      readSecret (.ok data) = some "" ∧ readSecret (.ok data) ≠ none) := by
  refine ⟨fun _ => rfl, jsTrim_append_newline, fun data h => ?_⟩
  have : readSecret (.ok data) = some (jsTrim data) := rfl
  rw [this, jsTrim_all_whitespace data h]
  exact ⟨rfl, by simp⟩

/-- Witness for C9 at concrete secret file contents. -/
theorem readSecret_trims_on_success_witness :
    readSecret (.ok "token123\n") = some (jsTrim "token123\n") ∧
    jsTrim ("  abc  " ++ "\n") = jsTrim "  abc  " ∧
    (readSecret (.ok " \n\t ") = some "" ∧ readSecret (.ok " \n\t ") ≠ none) :=
  ⟨readSecret_trims_on_success.1 "token123\n",
   readSecret_trims_on_success.2.1 "  abc  ",
   readSecret_trims_on_success.2.2 " \n\t " (by decide)⟩

theorem getConfigCalls_cached (env : String → ReadResult) (c : JsConfig) :
    ∀ n : Nat, getConfigCalls env n (some c) = (List.replicate n c, 0, some c) := by
  intro n
  induction n with
  | zero => rfl
  | succ k ih => simp [getConfigCalls, getConfig, ih, List.replicate_succ]

/-- C8: configuration resolution runs at most once per process: a
sequence of n getConfig calls (JS interleaves concurrent callers
sequentially over the one cached promise) runs loadConfig exactly
min n 1 times and every call observes the identical record; fields whose
secret read failed are null, and no validation rejects such a record --
getConfig is total. -/
theorem getConfig_memoized_once :
    (∀ (env : String → ReadResult) (n : Nat),
      (getConfigCalls env n none).1 = List.replicate n (loadConfig env) ∧
      (getConfigCalls env n none).2.1 = min n 1) ∧
    (∀ msgs : String → String,
      loadConfig (fun s => .fail (msgs s)) =
        ⟨none, none, none, none, none, none, none, none⟩) := by
  constructor
  · intro env n
    cases n with
    | zero => exact ⟨rfl, rfl⟩
    | succ k =>
        simp [getConfigCalls, getConfig, getConfigCalls_cached, List.replicate_succ]
  · intro msgs
    rfl

/-- C4: the login-confirmation poll never leaves AwaitingLogin while no
navigation result's URL contains the configured confirmation substring
(TARGET_URL): over any finite trace with no match checkLoginRun is still
polling; and it exits exactly at the first iteration whose
post-navigation URL contains the substring, after sleeping the fixed
10000 ms once per iteration. -/
theorem checkLogin_exits_on_first_match :
    ∀ (target : String) (urls : List String),
      ((∀ u ∈ urls, jsIncludes u target = false) →
        checkLoginRun target urls = none) ∧
      (∀ (i : Nat) (hi : i < urls.length),
        jsIncludes (urls.get ⟨i, hi⟩) target = true →
        (∀ (j : Nat) (hj : j < i),
          jsIncludes (urls.get ⟨j, Nat.lt_trans hj hi⟩) target = false) →
        checkLoginRun target urls = some (i, 10000 * (i + 1))) := by
  intro target urls
  constructor
  · intro hnone
    induction urls with
    | nil => rfl
    | cons u rest ih =>
        have hu : jsIncludes u target = false := hnone u (by simp)
        have hrest : ∀ u ∈ rest, jsIncludes u target = false :=
          fun v hv => hnone v (by simp [hv])
        simp [checkLoginRun, hu, ih hrest]
  · induction urls with
    | nil => intro i hi; exact absurd hi (by simp)
    | cons u rest ih =>
        intro i hi hmatch hbefore
        cases i with
        | zero =>
            simp only [List.get] at hmatch
            simp [checkLoginRun, hmatch]
        | succ k =>
            have hu : jsIncludes u target = false := by
              have := hbefore 0 (Nat.succ_pos k)
              simpa using this
            have hk : k < rest.length := Nat.lt_of_succ_lt_succ hi
            have hrec := ih k hk (by simpa using hmatch)
              (fun j hj => by
                have := hbefore (j + 1) (Nat.succ_lt_succ hj)
                simpa using this)
            simp [checkLoginRun, hu, hrec]
            ring

/-- Witness for C4 at a concrete trace: the second navigation result is
the first whose URL contains the target substring, and the poll exits
there after two 10-second sleeps. -/
theorem checkLogin_exits_on_first_match_witness :
    checkLoginRun "https://conf" ["https://login", "xx https://conf yy"] =
      some (1, 20000) := by
  have h := (checkLogin_exits_on_first_match "https://conf"
      ["https://login", "xx https://conf yy"]).2 1 (by decide) (by decide)
      (fun j hj => by
        match j, hj with
        | 0, _ =>
            show jsIncludes "https://login" "https://conf" = false
            decide
        | k + 1, h => exact absurd h (by omega))
  simpa using h

theorem setItem_fresh (st : Storage) (k v : List Nat)
    (h : st.any (fun p => p.1 = k) = false) :
    setItem st k v = st ++ [(k, v)] := by
  simp [setItem, h]

theorem inject_fold_append (pairs : List (List Nat × List Nat)) :
    ∀ acc : Storage,
      (pairs.map Prod.fst).Nodup →
      (∀ p ∈ pairs, acc.any (fun q => q.1 = p.1) = false) →
      pairs.foldl (fun s p => setItem s p.1 p.2) acc = acc ++ pairs := by
  induction pairs with
  | nil => intro acc _ _; simp
  | cons p rest ih =>
      intro acc hnd hfresh
      have hfr : acc.any (fun q => q.1 = p.1) = false := hfresh p (by simp)
      rw [List.foldl_cons, setItem_fresh acc p.1 p.2 hfr]
      have hnd2 : (rest.map Prod.fst).Nodup := (List.nodup_cons.mp hnd).2
      have hnotin : p.1 ∉ rest.map Prod.fst := (List.nodup_cons.mp hnd).1
      have hfresh2 : ∀ q ∈ rest, (acc ++ [(p.1, p.2)]).any (fun r => r.1 = q.1) = false := by
        intro q hq
        rw [List.any_append]
        have h1 : acc.any (fun r => r.1 = q.1) = false := hfresh q (by simp [hq])
        have h2 : p.1 ≠ q.1 := by
          intro he
          exact hnotin (he ▸ List.mem_map_of_mem Prod.fst hq)
        simp [h1, h2]
      rw [ih (acc ++ [(p.1, p.2)]) hnd2 hfresh2]
      simp

theorem getItem_of_mem (pairs : List (List Nat × List Nat))
    (hnd : (pairs.map Prod.fst).Nodup) :
    ∀ p ∈ pairs, getItem pairs p.1 = some p.2 := by
  induction pairs with
  | nil => intro p hp; cases hp
  | cons q rest ih =>
      intro p hp
      rcases List.mem_cons.mp hp with he | hm
      · subst he
        simp [getItem, List.find?]
      · have hnotin : q.1 ∉ rest.map Prod.fst := (List.nodup_cons.mp hnd).1
        have hne : q.1 ≠ p.1 := by
          intro he
          exact hnotin (he ▸ List.mem_map_of_mem Prod.fst hm)
        have := ih (List.nodup_cons.mp hnd).2 p hm
        simpa [getItem, List.find?, hne] using this

/-- C5: for a snapshot that parses to N string key/value pairs, the
Restoring phase's injection into the (fresh, hence empty) page storage
results in exactly N observable pairs, each value equal to the source
value; when the snapshot text does not parse, the error is logged inside
the callback, storage is unchanged and navigation is not aborted. -/
theorem injectStorage_restores_exactly :
    ∀ pairs : List (List Nat × List Nat),
      ((pairs.map Prod.fst).Nodup →
        (injectStorage (some pairs) []).storage.length = pairs.length ∧
        (∀ p ∈ pairs, getItem (injectStorage (some pairs) []).storage p.1 = some p.2) ∧
        (injectStorage (some pairs) []).loggedParseError = false ∧
        (injectStorage (some pairs) []).abortedNavigation = false) ∧
      (∀ st : Storage, injectStorage none st = ⟨st, true, false⟩) := by
  intro pairs
  constructor
  · intro hnd
    have hfold : pairs.foldl (fun s p => setItem s p.1 p.2) ([] : Storage) = pairs := by
      have := inject_fold_append pairs [] hnd (fun p _ => rfl)
      simpa using this
    refine ⟨?_, ?_, rfl, rfl⟩
    · simp [injectStorage, hfold]
    · intro p hp
      simp only [injectStorage, hfold]
      exact getItem_of_mem pairs hnd p hp
  · intro st
    rfl

/-- Witness for C5: injecting the two-pair snapshot sid=abc, tok=xyz
into a fresh page yields exactly those two observable pairs, and a
non-parsing snapshot leaves a nonempty storage untouched. -/
theorem injectStorage_restores_exactly_witness :
    ((injectStorage (some [([115], [97]), ([116], [120])]) []).storage.length = 2 ∧
      getItem (injectStorage (some [([115], [97]), ([116], [120])]) []).storage
        [115] = some [97]) ∧
    injectStorage none [([1], [2])] = ⟨[([1], [2])], true, false⟩ := by
  have h := injectStorage_restores_exactly [([115], [97]), ([116], [120])]
  have h1 := (h.1 (by decide))
  exact ⟨⟨h1.1, h1.2.1 ([115], [97]) (by simp)⟩, h.2 [([1], [2])]⟩

theorem keepSessionAliveEnds_runs (fuel : Nat) :
    ∀ ends : Nat → AttemptEnd, keepSessionAliveEnds fuel ends = (fuel, false) := by
  induction fuel with
  | zero => intro ends; rfl
  | succ k ih => intro ends; simp [keepSessionAliveEnds, ih]

theorem keepSessionAliveRun_runs (cfg : Config) (fuel : Nat) :
    ∀ (envs : Nat → DriverEnv) (fs : LocalFS) (st : S3State),
      (keepSessionAliveRun cfg fuel envs fs st).1 = fuel ∧
      (keepSessionAliveRun cfg fuel envs fs st).2 = false := by
  induction fuel with
  | zero => intro envs fs st; exact ⟨rfl, rfl⟩
  | succ k ih =>
      intro envs fs st
      have h := ih (fun i => envs (i + 1))
        (loginWithGoogle cfg (envs 0) fs st).2.1
        (loginWithGoogle cfg (envs 0) fs st).2.2
      simp [keepSessionAliveRun, h.1, h.2]

/-- C6: the Keepalive Supervisor never terminates: within any fuel and
over any stream of attempt ends (normal returns or thrown exceptions,
the latter caught and logged), every iteration runs, the step after each
attempt sleeps exactly 10000 ms and unconditionally retries, and the
same holds for the loop wired to the actual driver model; no condition
ever makes a step not retry. -/
theorem keepSessionAlive_never_terminates :
    (∀ (fuel : Nat) (ends : Nat → AttemptEnd),
      keepSessionAliveEnds fuel ends = (fuel, false)) ∧
    (∀ a : AttemptEnd,
      (keepAliveStep a).delayMs = 10000 ∧ (keepAliveStep a).retries = true) ∧
    (∀ e : String, keepAliveStep (.thrown e) = ⟨true, 10000, true⟩) ∧
    (∀ (cfg : Config) (fuel : Nat) (envs : Nat → DriverEnv)
      (fs : LocalFS) (st : S3State),
      (keepSessionAliveRun cfg fuel envs fs st).1 = fuel ∧
      (keepSessionAliveRun cfg fuel envs fs st).2 = false) := by
  refine ⟨keepSessionAliveEnds_runs, fun a => ?_, fun e => rfl,
    fun cfg fuel envs fs st => keepSessionAliveRun_runs cfg fuel envs fs st⟩
  cases a <;> exact ⟨rfl, rfl⟩

/-- C3: when the remote snapshot object is absent or its fetch fails,
readS3File returns the missing indicator, the driver attempt returns at
the falsiness gate with no browser launched and no exception past the
driver boundary, and the supervisor step after this normal return still
sleeps the fixed 10000 ms and retries. -/
theorem restore_absent_aborts_without_throwing :
    ∀ (cfg : Config) (env : DriverEnv) (fs : LocalFS) (st : S3State),
      (st cfg.SPACE_BUCKET cfg.SPACE_PATH = none ∨
        ∃ e, env.fetchEnv.getOutcome = .err e) →
      readS3File cfg env.fetchEnv st = none ∧
      loginWithGoogle cfg env fs st =
        (⟨false, false, false, 0, none, false, false, false⟩, fs, st) ∧
      keepAliveStep .normal = ⟨false, 10000, true⟩ := by
  intro cfg env fs st h
  have hnone : readS3File cfg env.fetchEnv st = none := by
    rcases h with habs | ⟨e, herr⟩
    · unfold readS3File
      cases env.fetchEnv.getOutcome with
      | err m => rfl
      | ok => rw [habs]
    · unfold readS3File
      rw [herr]
  refine ⟨hnone, ?_, rfl⟩
  unfold loginWithGoogle
  rw [hnone]
  rfl

/-- Witness for C3: with no object in the store, the driver attempt
returns without launching a browser and the supervisor schedules the
10-second retry. -/
theorem restore_absent_aborts_without_throwing_witness :
    readS3File cfg0 envDriverOk.fetchEnv stNone = none ∧
    loginWithGoogle cfg0 envDriverOk fs0 stNone =
      (⟨false, false, false, 0, none, false, false, false⟩, fs0, stNone) ∧
    keepAliveStep .normal = ⟨false, 10000, true⟩ :=
  restore_absent_aborts_without_throwing cfg0 envDriverOk fs0 stNone (Or.inl rfl)

/-- C7 counterexample: at a concrete input whose browser launch rejects,
the error is caught and logged inside the Session Driver itself, which
returns normally: no exception reaches the Supervisor, so its
error-handling catch branch is not exercised, contrary to the claim that
the failure reaches the Supervisor's error-handling path rather than
being swallowed inside the Session Driver. -/
theorem launch_failure_swallowed_in_driver :
    (loginWithGoogle cfg0 envLaunchFail fs0 stOneByte).1.loggedLoginError =
      some "launch failed" ∧
    ¬ (loginWithGoogle cfg0 envLaunchFail fs0 stOneByte).1.threw = true := by
  constructor
  · rfl
  · decide

/-- C7 (amended): a browser launch failure is fatal to the current
session attempt: no further phase runs (no injection, no login
confirmation, no refresh tick), the error is caught and logged inside
the Session Driver, which returns normally without a browser to close;
the Supervisor then retries after the fixed 10000 ms through its normal
path, its catch branch untriggered. -/
theorem launch_failure_fatal_to_attempt :
    ∀ (cfg : Config) (env : DriverEnv) (fs : LocalFS) (st : S3State) (e : String),
      jsFalsy (readS3File cfg env.fetchEnv st) = false →
      env.launchResult = .err e →
      loginWithGoogle cfg env fs st =
        (⟨false, false, false, 0, some e, false, false, false⟩, fs, st) ∧
      keepAliveStep .normal = ⟨false, 10000, true⟩ := by
  intro cfg env fs st e hfetch hlaunch
  refine ⟨?_, rfl⟩
  simp only [loginWithGoogle]
  rw [hfetch, hlaunch]
  rfl

/-- Witness for the amended C7 at the concrete launch-failure
environment. -/
theorem launch_failure_fatal_to_attempt_witness :
    loginWithGoogle cfg0 envLaunchFail fs0 stOneByte =
      (⟨false, false, false, 0, some "launch failed", false, false, false⟩,
        fs0, stOneByte) ∧
    keepAliveStep .normal = ⟨false, 10000, true⟩ :=
  launch_failure_fatal_to_attempt cfg0 envLaunchFail fs0 stOneByte
    "launch failed" (by decide) rfl

/-- C10: an existing remote snapshot whose fetched content is the empty
string is treated exactly as an absent object: the attempt returns at
the same falsiness gate, before any browser resource is acquired, with
an outcome indistinguishable from the absent case at the driver
boundary. -/
theorem empty_snapshot_treated_as_absent :
    ∀ (cfg : Config) (env : DriverEnv) (fs : LocalFS) (stE stA : S3State),
      stE cfg.SPACE_BUCKET cfg.SPACE_PATH = some [] →
      stA cfg.SPACE_BUCKET cfg.SPACE_PATH = none →
      env.fetchEnv.getOutcome = .ok →
      (env.fetchEnv.chunking []).flatten = [] →
      (loginWithGoogle cfg env fs stE).1 = (loginWithGoogle cfg env fs stA).1 ∧
      (loginWithGoogle cfg env fs stE).1.launched = false ∧
      (loginWithGoogle cfg env fs stE).1.threw = false := by
  intro cfg env fs stE stA hE hA hok hchunk
  have hreadE : readS3File cfg env.fetchEnv stE = some [] := by
    unfold readS3File
    rw [hok, hE]
    show some (streamToString (env.fetchEnv.chunking [])) = some []
    unfold streamToString
    rw [hchunk]
    rfl
  have hreadA : readS3File cfg env.fetchEnv stA = none := by
    unfold readS3File
    rw [hok, hA]
  constructor
  · unfold loginWithGoogle
    rw [hreadE, hreadA]
    rfl
  · unfold loginWithGoogle
    rw [hreadE]
    exact ⟨rfl, rfl⟩

/-- Witness for C10: a present-but-empty object body and a missing
object produce the same driver outcome, with no browser acquired. -/
theorem empty_snapshot_treated_as_absent_witness :
    (loginWithGoogle cfg0 envDriverOk fs0 stEmptyBody).1 =
      (loginWithGoogle cfg0 envDriverOk fs0 stNone).1 ∧
    (loginWithGoogle cfg0 envDriverOk fs0 stEmptyBody).1.launched = false ∧
    (loginWithGoogle cfg0 envDriverOk fs0 stEmptyBody).1.threw = false :=
  empty_snapshot_treated_as_absent cfg0 envDriverOk fs0 stEmptyBody stNone
    rfl rfl rfl rfl

theorem refreshLoop_runs (cfg : Config) (fuel : Nat) :
    ∀ (envs : Nat → RefreshEnv) (fs : LocalFS) (st : S3State),
      (refreshLoop cfg fuel envs fs st).2.1 = fuel ∧
      (refreshLoop cfg fuel envs fs st).2.2 = false := by
  induction fuel with
  | zero => intro envs fs st; exact ⟨rfl, rfl⟩
  | succ k ih =>
      intro envs fs st
      have h := ih (fun i => envs (i + 1))
        (refreshAndGetToken cfg (envs 0) fs st).fs
        (refreshAndGetToken cfg (envs 0) fs st).st
      simp [refreshLoop, h.1, h.2]

/-- C1: no error inside one refresh cycle terminates the refresh loop:
within any fuel and over any stream of cycle environments every
scheduled tick executes and the loop never terminates; a page reload
failure, a storage-capture evaluation failure, a scratch-file write
failure, or a scratch-file re-read failure inside the upload is caught
by the cycle's catch branch and logged there, and an object-store send
failure is caught and logged inside uploadToS3 itself, after which the
cycle still returns normally. -/
theorem refresh_cycle_errors_nonfatal :
    (∀ (cfg : Config) (fuel : Nat) (envs : Nat → RefreshEnv)
      (fs : LocalFS) (st : S3State),
      (refreshLoop cfg fuel envs fs st).2.1 = fuel ∧
      (refreshLoop cfg fuel envs fs st).2.2 = false) ∧
    (∀ (cfg : Config) (env : RefreshEnv) (fs : LocalFS) (st : S3State) (e : String),
      env.pageClosed = false →
      (env.reloadResult = .err e ∨
        (env.reloadResult = .ok ∧ env.captureResult = .error e) ∨
        (env.reloadResult = .ok ∧ (∃ d, env.captureResult = .ok d) ∧
          env.writeResult = .err e) ∨
        (env.reloadResult = .ok ∧ (∃ d, env.captureResult = .ok d) ∧
          env.writeResult = .ok ∧ env.uploadEnv.readFileResult = .err e)) →
      (refreshAndGetToken cfg env fs st).loggedError = some e) ∧
    (∀ (cfg : Config) (env : RefreshEnv) (fs : LocalFS) (st : S3State)
      (e : String) (d : List (List Nat × List Nat)) (tok : List Nat),
      env.pageClosed = false → env.reloadResult = .ok →
      env.captureResult = .ok d → env.writeResult = .ok →
      env.uploadEnv = ⟨.ok, .err e⟩ → env.tokenResult = .ok tok →
      (uploadToS3 cfg env.uploadEnv ⟨some (utf8Encode (jsonStringifyMap d))⟩ st).2 =
        .sendFailedLogged e ∧
      (refreshAndGetToken cfg env fs st).loggedError = none) := by
  refine ⟨fun cfg fuel envs fs st => refreshLoop_runs cfg fuel envs fs st,
    ?_, ?_⟩
  · intro cfg env fs st e hpage hcase
    rcases hcase with h1 | ⟨h1, h2⟩ | ⟨h1, ⟨d, h2⟩, h3⟩ | ⟨h1, ⟨d, h2⟩, h3, h4⟩
    · unfold refreshAndGetToken
      rw [if_neg (by simp [hpage]), h1]
    · unfold refreshAndGetToken
      rw [if_neg (by simp [hpage]), h1, h2]
    · unfold refreshAndGetToken
      rw [if_neg (by simp [hpage]), h1, h2, h3]
    · unfold refreshAndGetToken
      rw [if_neg (by simp [hpage]), h1, h2, h3]
      unfold uploadToS3
      rw [h4]
  · intro cfg env fs st e d tok hpage h1 h2 h3 h4 h5
    constructor
    · rw [h4]
      rfl
    · unfold refreshAndGetToken
      rw [if_neg (by simp [hpage]), h1, h2, h3]
      unfold uploadToS3
      rw [h4, h5]

/-- Witness for C1: with three cycles whose environments fail at the
reload, the scratch write and the store send respectively, all three
scheduled ticks execute, the loop does not terminate, and each error is
logged where its catch sits. -/
theorem refresh_cycle_errors_nonfatal_witness :
    ((refreshLoop cfg0 3
        (fun i => if i = 0 then ⟨false, .err "reload fail", .ok [], .ok, ⟨.ok, .ok⟩, .ok []⟩
          else if i = 1 then ⟨false, .ok, .ok [], .err "write fail", ⟨.ok, .ok⟩, .ok []⟩
          else ⟨false, .ok, .ok [], .ok, ⟨.ok, .err "send fail"⟩, .ok []⟩)
        fs0 stNone).2.1 = 3 ∧
      (refreshLoop cfg0 3
        (fun i => if i = 0 then ⟨false, .err "reload fail", .ok [], .ok, ⟨.ok, .ok⟩, .ok []⟩
          else if i = 1 then ⟨false, .ok, .ok [], .err "write fail", ⟨.ok, .ok⟩, .ok []⟩
          else ⟨false, .ok, .ok [], .ok, ⟨.ok, .err "send fail"⟩, .ok []⟩)
        fs0 stNone).2.2 = false) ∧
    (refreshAndGetToken cfg0 ⟨false, .err "reload fail", .ok [], .ok, ⟨.ok, .ok⟩, .ok []⟩
      fs0 stNone).loggedError = some "reload fail" ∧
    (uploadToS3 cfg0 ⟨.ok, .err "send fail"⟩
        ⟨some (utf8Encode (jsonStringifyMap []))⟩ stNone).2 =
      .sendFailedLogged "send fail" ∧
    (refreshAndGetToken cfg0 ⟨false, .ok, .ok [], .ok, ⟨.ok, .err "send fail"⟩, .ok []⟩
      fs0 stNone).loggedError = none := by
  have hsend := refresh_cycle_errors_nonfatal.2.2 cfg0
    ⟨false, .ok, .ok [], .ok, ⟨.ok, .err "send fail"⟩, .ok []⟩ fs0 stNone
    "send fail" [] [] rfl rfl rfl rfl rfl rfl
  exact ⟨refresh_cycle_errors_nonfatal.1 cfg0 3 _ fs0 stNone,
    refresh_cycle_errors_nonfatal.2.1 cfg0
      ⟨false, .err "reload fail", .ok [], .ok, ⟨.ok, .ok⟩, .ok []⟩ fs0 stNone
      "reload fail" rfl (Or.inl rfl),
    hsend.1, hsend.2⟩

theorem utf8DecodeStep_shrinks (b0 : Nat) (rest : List Nat) :
    (utf8DecodeStep b0 rest).2.length ≤ rest.length := by
  unfold utf8DecodeStep
  repeat' split
  all_goals simp_all
  all_goals omega

theorem utf8DecodeAux_fuel (f : Nat) :
    ∀ (g : Nat) (l : List Nat), l.length ≤ f → l.length ≤ g →
      utf8DecodeAux f l = utf8DecodeAux g l := by
  induction f with
  | zero =>
      intro g l hf hg
      have : l = [] := List.length_eq_zero.mp (Nat.le_zero.mp hf)
      subst this
      cases g <;> rfl
  | succ f ih =>
      intro g l hf hg
      cases l with
      | nil => cases g <;> rfl
      | cons b0 rest =>
          cases g with
          | zero => simp at hg
          | succ g =>
              simp only [utf8DecodeAux]
              have hlen := utf8DecodeStep_shrinks b0 rest
              have h1 : (utf8DecodeStep b0 rest).2.length ≤ f := by
                simp only [List.length_cons] at hf
                omega
              have h2 : (utf8DecodeStep b0 rest).2.length ≤ g := by
                simp only [List.length_cons] at hg
                omega
              rw [ih g (utf8DecodeStep b0 rest).2 h1 h2]

theorem utf8EncodeChar_step (c : Nat) (hc : c < 1114112) (tail : List Nat) :
    ∃ h t, utf8EncodeChar c = h :: t ∧
      utf8DecodeStep h (t ++ tail) = (c, tail) := by
  by_cases h1 : c < 128
  · refine ⟨c, [], by simp [utf8EncodeChar, h1], ?_⟩
    unfold utf8DecodeStep
    rw [if_pos h1]
    rfl
  · by_cases h2 : c < 2048
    · refine ⟨192 + c / 64, [128 + c % 64], by simp [utf8EncodeChar, h1, h2], ?_⟩
      unfold utf8DecodeStep
      rw [if_neg (by omega), if_neg (by omega), if_pos (by omega)]
      show (if (128 + c % 64) / 64 = 2 then _ else _) = _
      rw [if_pos (by omega)]
      simp only [Prod.mk.injEq]
      exact ⟨by omega, rfl⟩
    · by_cases h3 : c < 65536
      · refine ⟨224 + c / 4096, [128 + c / 64 % 64, 128 + c % 64],
          by simp [utf8EncodeChar, h1, h2, h3], ?_⟩
        unfold utf8DecodeStep
        rw [if_neg (by omega), if_neg (by omega), if_neg (by omega), if_pos (by omega)]
        show (if ((128 + c / 64 % 64) / 64 = 2 && (128 + c % 64) / 64 = 2) = true
          then _ else _) = _
        rw [if_pos (by simp only [Bool.and_eq_true, decide_eq_true_eq]; omega)]
        simp only [Prod.mk.injEq]
        exact ⟨by omega, rfl⟩
      · refine ⟨240 + c / 262144, [128 + c / 4096 % 64, 128 + c / 64 % 64, 128 + c % 64],
          by simp [utf8EncodeChar, h1, h2, h3], ?_⟩
        unfold utf8DecodeStep
        rw [if_neg (by omega), if_neg (by omega), if_neg (by omega), if_neg (by omega),
          if_pos (by omega)]
        show (if ((128 + c / 4096 % 64) / 64 = 2 && (128 + c / 64 % 64) / 64 = 2 &&
          (128 + c % 64) / 64 = 2) = true then _ else _) = _
        rw [if_pos (by simp only [Bool.and_eq_true, decide_eq_true_eq]; omega)]
        simp only [Prod.mk.injEq]
        exact ⟨by omega, rfl⟩

theorem utf8Encode_cons (c : Nat) (cs : List Nat) :
    utf8Encode (c :: cs) = utf8EncodeChar c ++ utf8Encode cs := by
  simp [utf8Encode]

theorem utf8DecodeAux_encode (cs : List Nat) :
    validText cs →
    ∀ (rest : List Nat) (f : Nat), (utf8Encode cs ++ rest).length ≤ f →
      utf8DecodeAux f (utf8Encode cs ++ rest) = cs ++ utf8DecodeAux rest.length rest := by
  induction cs with
  | nil =>
      intro _ rest f hf
      simp only [utf8Encode, List.map_nil, List.flatten_nil, List.nil_append] at *
      exact utf8DecodeAux_fuel f rest.length rest hf le_rfl
  | cons c cs ih =>
      intro hval rest f hf
      have hc : c < 1114112 := hval c (by simp)
      obtain ⟨h, t, he, hs⟩ := utf8EncodeChar_step c hc (utf8Encode cs ++ rest)
      rw [utf8Encode_cons, he] at hf ⊢
      simp only [List.cons_append, List.append_assoc] at hf ⊢
      cases f with
      | zero => simp at hf
      | succ f =>
          simp only [utf8DecodeAux, hs]
          show c :: utf8DecodeAux f (utf8Encode cs ++ rest) = c :: (cs ++ _)
          congr 1
          apply ih (fun x hx => hval x (by simp [hx]))
          simp only [List.length_cons, List.length_append] at hf ⊢
          omega

theorem utf8_roundtrip (cs : List Nat) (hval : validText cs) :
    utf8DecodeLossy (utf8Encode cs) = cs := by
  have h := utf8DecodeAux_encode cs hval [] (utf8Encode cs).length (by simp)
  simpa [utf8DecodeLossy, utf8DecodeAux] using h

theorem hexDigit_lt (n : Nat) (h : n ≤ 15) : hexDigit n < 128 := by
  unfold hexDigit
  split <;> omega

theorem mem_jsonEscapeChar (c x : Nat) (hx : x ∈ jsonEscapeChar c) :
    x < 128 ∨ x = c := by
  unfold jsonEscapeChar at hx
  split_ifs at hx with h1 h2 h3 h4 h5 h6 h7 h8
  · left; simp at hx; omega
  · left; simp at hx; omega
  · left; simp at hx; omega
  · left; simp at hx; omega
  · left; simp at hx; omega
  · left; simp at hx; omega
  · left; simp at hx; omega
  · have ha : hexDigit (c / 16) < 128 := hexDigit_lt _ (by omega)
    have hb : hexDigit (c % 16) < 128 := hexDigit_lt _ (by omega)
    simp at hx
    rcases hx with h | h | h | h | h | h <;> omega
  · right; simpa using hx

theorem mem_jsonQuote (s : List Nat) (x : Nat) (hx : x ∈ jsonQuote s) :
    x < 128 ∨ x ∈ s := by
  unfold jsonQuote at hx
  rcases List.mem_append.mp hx with hleft | h34b
  · rcases List.mem_append.mp hleft with h34 | hmid
    · left; simp at h34; omega
    · rcases List.mem_flatten.mp hmid with ⟨l, hl, hxl⟩
      rcases List.mem_map.mp hl with ⟨c, hc, hfc⟩
      rcases mem_jsonEscapeChar c x (hfc ▸ hxl) with h | h
      · left; exact h
      · right; rw [h]; exact hc
  · left; simp at h34b; omega

theorem mem_joinSep (sep : List Nat) (l : List (List Nat)) (x : Nat) :
    x ∈ joinSep sep l → x ∈ sep ∨ ∃ y ∈ l, x ∈ y := by
  induction l with
  | nil => intro hx; cases hx
  | cons a l ih =>
      cases l with
      | nil =>
          intro hx
          right
          exact ⟨a, by simp, by simpa [joinSep] using hx⟩
      | cons b l2 =>
          intro hx
          simp only [joinSep, List.append_assoc, List.mem_append] at hx
          rcases hx with hx | hx | hx
          · right; exact ⟨a, by simp, hx⟩
          · left; exact hx
          · rcases ih hx with h | ⟨y, hy, hxy⟩
            · left; exact h
            · right; exact ⟨y, by simp [List.mem_cons] at hy ⊢; tauto, hxy⟩

theorem validText_jsonStringifyMap (m : List (List Nat × List Nat))
    (hm : ∀ p ∈ m, validText p.1 ∧ validText p.2) :
    validText (jsonStringifyMap m) := by
  intro x hx
  match m with
  | [] =>
      simp [jsonStringifyMap] at hx
      omega
  | p :: m2 =>
      unfold jsonStringifyMap at hx
      simp only [List.append_assoc, List.mem_append] at hx
      rcases hx with hx | hx | hx
      · simp at hx; omega
      · rcases mem_joinSep _ _ x hx with hsep | ⟨y, hy, hxy⟩
        · simp at hsep; omega
        · rcases List.mem_map.mp hy with ⟨q, hq, rfl⟩
          simp only [List.append_assoc, List.mem_append] at hxy
          rcases hxy with h | h | h | h
          · simp at h; omega
          · rcases mem_jsonQuote _ _ h with hlt | hmem
            · omega
            · exact lt_of_lt_of_le ((hm q hq).1 x hmem) (by omega)
          · simp at h; omega
          · rcases mem_jsonQuote _ _ h with hlt | hmem
            · omega
            · exact lt_of_lt_of_le ((hm q hq).2 x hmem) (by omega)
      · simp at hx; omega

/-- C2: for every flat string-to-string map serialized as a JSON
document into the scratch file, storing it with uploadToS3 and fetching
the same bucket/key back with readS3File returns exactly the stored
text byte for byte: the fetch is the UTF-8 decoding of the concatenated
stream chunks of the uploaded file buffer, and that decoding inverts
the encoding of the serialized document. -/
theorem store_fetch_roundtrip :
    ∀ (cfg : Config) (fenv : FetchEnv) (fs : LocalFS) (st : S3State)
      (m : List (List Nat × List Nat)),
      (∀ p ∈ m, validText p.1 ∧ validText p.2) →
      fs.scratch = some (utf8Encode (jsonStringifyMap m)) →
      fenv.getOutcome = .ok →
      (fenv.chunking (utf8Encode (jsonStringifyMap m))).flatten =
        utf8Encode (jsonStringifyMap m) →
      (uploadToS3 cfg ⟨.ok, .ok⟩ fs st).2 = .uploaded ∧
      readS3File cfg fenv (uploadToS3 cfg ⟨.ok, .ok⟩ fs st).1 =
        some (jsonStringifyMap m) := by
  intro cfg fenv fs st m hm hfs hok hchunk
  have hup : uploadToS3 cfg ⟨.ok, .ok⟩ fs st =
      (putObject st cfg.SPACE_BUCKET cfg.SPACE_PATH
        (utf8Encode (jsonStringifyMap m)), .uploaded) := by
    unfold uploadToS3
    rw [hfs]
  refine ⟨by rw [hup], ?_⟩
  rw [hup]
  show readS3File cfg fenv (putObject st cfg.SPACE_BUCKET cfg.SPACE_PATH
    (utf8Encode (jsonStringifyMap m))) = some (jsonStringifyMap m)
  unfold readS3File
  rw [hok]
  have hput : putObject st cfg.SPACE_BUCKET cfg.SPACE_PATH
      (utf8Encode (jsonStringifyMap m)) cfg.SPACE_BUCKET cfg.SPACE_PATH =
      some (utf8Encode (jsonStringifyMap m)) := by
    unfold putObject
    simp
  rw [hput]
  show some (streamToString (fenv.chunking (utf8Encode (jsonStringifyMap m)))) = _
  unfold streamToString
  rw [hchunk, utf8_roundtrip (jsonStringifyMap m) (validText_jsonStringifyMap m hm)]

/-- Witness for C2: the one-pair map sid=abc, serialized, stored and
fetched back through the modelled store, returns exactly the serialized
document. -/
theorem store_fetch_roundtrip_witness :
    (uploadToS3 cfg0 ⟨.ok, .ok⟩
        ⟨some (utf8Encode (jsonStringifyMap [([115, 105, 100], [97, 98, 99])]))⟩
        stNone).2 = .uploaded ∧
    readS3File cfg0 ⟨.ok, oneChunk⟩
        (uploadToS3 cfg0 ⟨.ok, .ok⟩
          ⟨some (utf8Encode (jsonStringifyMap [([115, 105, 100], [97, 98, 99])]))⟩
          stNone).1 =
      some (jsonStringifyMap [([115, 105, 100], [97, 98, 99])]) :=
  store_fetch_roundtrip cfg0 ⟨.ok, oneChunk⟩ _ stNone
    [([115, 105, 100], [97, 98, 99])] (by decide) rfl rfl (by simp [oneChunk])

end S3App
